import Mathlib

/-!
Verification of the chat message mutation pipeline.

This file embeds the logic of src/chat/message_handlers.py: the before-save
and after-save hooks on message records, the soft-delete operation
delete_message with its replacement-newest computation, the conversation
last_message repointing and the user_conversation last_read_message
reconciliation. Record rows are lists of structures, the record store is a
ChatState value, and each Python function becomes a Lean function over
ChatState. Python exceptions become ChatError values; a failed database
transaction leaves the state it wrapped unchanged.

The collaborator classes (Message, Conversation, UserConversation,
MessageHistory) live outside the embedded file; where their behavior is
needed it is modelled from the spec and marked as such in the doc comment.
-/

namespace Chat

/-- Chat message record: id, owning conversation, per-store sequence number,
content, soft-delete flag, edit revision, delivery status, edit metadata and
the stamped access policy. -/
structure Message where
  id : String
  conversation_id : String
  seq : Nat
  body : String
  deleted : Bool
  revision : Nat
  message_status : Option String
  edited_at : Nat
  edited_by : String
  acl : String
deriving DecidableEq

/-- Conversation record: id, nullable pointer to the newest message, and the
access policy stamped onto messages of the conversation. -/
structure Conversation where
  id : String
  last_message : Option String
  message_acl : String
deriving DecidableEq

/-- UserConversation membership row: user, conversation, unread counter and
nullable read pointer. -/
structure UserConversation where
  user_id : String
  conversation_id : String
  unread_count : Nat
  last_read_message : Option String
deriving DecidableEq

/-- The record store: message, conversation and user_conversation tables plus
the append-only message history archive. -/
structure ChatState where
  messages : List Message
  conversations : List Conversation
  user_conversations : List UserConversation
  history : List Message
deriving DecidableEq

/-- Errors raised by the pipeline. typeError models the Python TypeError
raised when the source concatenates the string prefix with a missing
replacement id. -/
inductive ChatError where
  | conversationNotFound
  | notInConversation
  | messageNotFound
  | alreadyDeleted
  | notSupported
  | typeError
deriving DecidableEq

/-- Modelled from the spec: Message.fetch_one, a lookup of a message row by
id in the record store (the Message class is an external collaborator). -/
def ChatState.fetchMessage (s : ChatState) (mid : String) : Option Message :=
  s.messages.find? (fun m => m.id == mid)

/-- Modelled from the spec: Conversation.fetch_one, a lookup of a
conversation row by id. -/
def ChatState.fetchConversation (s : ChatState) (cid : String) : Option Conversation :=
  s.conversations.find? (fun c => c.id == cid)

/-- Modelled from the spec: UserConversation.fetch_one, the membership row of
the current user for a conversation, used by the membership precondition. -/
def ChatState.fetchUserConversation (s : ChatState) (uid cid : String) :
    Option UserConversation :=
  s.user_conversations.find? (fun uc => uc.user_id == uid && uc.conversation_id == cid)

/-- True when an original record exists and carries deleted = true; the first
guard of handle_message_before_save. -/
def isDeletedOriginal (original_record : Option Message) : Bool :=
  match original_record with
  | some orig => orig.deleted
  | none => false

/-- Field stamping done by handle_message_before_save on every accepted save:
edited_at and edited_by are refreshed, message_status defaults to delivered
when unset, and the access policy is copied from the conversation. -/
def stampMessage (actor : String) (now : Nat) (conv : Conversation) (m : Message) :
    Message :=
  { m with
    edited_at := now
    edited_by := actor
    message_status := if m.message_status = none then some "delivered" else m.message_status
    acl := conv.message_acl }

/-- Embedding of handle_message_before_save. Guard order follows the source:
already-deleted originals are rejected first, then membership, then the
create branch initialises deleted and revision while the edit branch archives
the pre-edit snapshot to history; finally the record is stamped. The access
policy read (Conversation.get_message_acl, modelled from the spec as failing
with conversationNotFound when the conversation row is absent) is placed
before the branch; in the source the history persist precedes it, a
difference observable only when the conversation row is missing on an edit. -/
def handle_message_before_save (actor : String) (now : Nat) (record : Message)
    (original_record : Option Message) (s : ChatState) :
    Except ChatError (Message × ChatState) :=
  if isDeletedOriginal original_record then .error .alreadyDeleted
  else if s.fetchUserConversation actor record.conversation_id = none then
    .error .notInConversation
  else
    match s.fetchConversation record.conversation_id with
    | none => .error .conversationNotFound
    | some conv =>
      match original_record with
      | none =>
        .ok (stampMessage actor now conv { record with deleted := false, revision := 1 }, s)
      | some orig =>
        .ok (stampMessage actor now conv record, { s with history := s.history ++ [orig] })

/-- Embedding of handle_message_after_save. Participant notification is an
external side effect and does not change the store. On a create (no original
record) the unread counter of every membership row of the conversation other
than the actor is incremented and the conversation last_message is set to the
new message; on an edit or delete save nothing changes. -/
def handle_message_after_save (actor : String) (record : Message)
    (original_record : Option Message) (s : ChatState) : ChatState :=
  match original_record with
  | some _ => s
  | none =>
    let s1 := { s with
      user_conversations := s.user_conversations.map (fun (uc : UserConversation) =>
        if uc.conversation_id = record.conversation_id ∧ uc.user_id ≠ actor then
          { uc with unread_count := uc.unread_count + 1 }
        else uc) }
    { s1 with
      conversations := s1.conversations.map (fun (c : Conversation) =>
        if c.id = record.conversation_id then { c with last_message := some record.id }
        else c) }

/-- Writes a message row: an update when a row with the same id exists, an
insert otherwise. -/
def putMessage (msg : Message) (s : ChatState) : ChatState :=
  if s.messages.any (fun m => m.id == msg.id) then
    { s with messages := s.messages.map (fun m => if m.id == msg.id then msg else m) }
  else
    { s with messages := s.messages ++ [msg] }

/-- Modelled from the spec: a record save through the host record framework,
which runs the registered before-save hook, persists the returned record, and
runs the after-save hook (the hooks themselves are the embedded source). The
original record is the currently stored row with the same id. -/
def save_message (actor : String) (now : Nat) (record : Message) (s : ChatState) :
    Except ChatError ChatState :=
  match handle_message_before_save actor now record (s.fetchMessage record.id) s with
  | .error e => .error e
  | .ok (msg, s1) =>
    .ok (handle_message_after_save actor msg (s.fetchMessage record.id) (putMessage msg s1))

/-- Step function of the replacement query: keeps the non-deleted message of
greatest sequence strictly below seq seen so far. -/
def pickNewer (seq : Nat) (acc : Option Message) (m : Message) : Option Message :=
  if m.deleted = false ∧ m.seq < seq then
    match acc with
    | none => some m
    | some b => if b.seq < m.seq then some m else acc
  else acc

/-- Result of the SQL query SELECT _id FROM message WHERE deleted = false AND
seq < given ORDER BY seq DESC LIMIT 1: a non-deleted row of maximal sequence
strictly below the given sequence, across the whole message table. -/
def newestBefore (msgs : List Message) (seq : Nat) : Option Message :=
  msgs.foldl (pickNewer seq) none

/-- Embedding of _get_new_last_message_id. The query filters only on deleted
and sequence; it carries no conversation filter. -/
def _get_new_last_message_id (s : ChatState) (message : Message) : Option String :=
  (newestBefore s.messages message.seq).map Message.id

/-- Embedding of _update_conversation_last_message. The source compares the
key of the conversation last-message reference with the deleted message key
(a null reference never equals an existing key) and, on a match, writes the
string prefix concatenated with the new id; with a missing replacement the
concatenation raises TypeError. The type prefix itself is store reference
encoding and is not modelled. -/
def _update_conversation_last_message (conversation : Conversation)
    (last_message : Message) (new_last_message_id : Option String) (s : ChatState) :
    Except ChatError ChatState :=
  if conversation.last_message = some last_message.id then
    match new_last_message_id with
    | none => .error .typeError
    | some nid =>
      .ok { s with conversations := s.conversations.map (fun c =>
        if c.id = last_message.conversation_id then { c with last_message := some nid }
        else c) }
  else .ok s

/-- Embedding of _update_user_conversation_last_read_message: one set-based
update repointing every row whose read pointer equals the deleted message to
the replacement (null included, matching the SQL NULL assignment). -/
def _update_user_conversation_last_read_message (last_message : Message)
    (new_last_message_id : Option String) (s : ChatState) : ChatState :=
  { s with user_conversations := s.user_conversations.map (fun uc =>
      if uc.last_read_message = some last_message.id then
        { uc with last_read_message := new_last_message_id }
      else uc) }

/-- Embedding of delete_message. The soft-delete is persisted through the
save pipeline (Message.delete is modelled from the spec as a save of the
record with deleted set to true, which the before-save hook validates); the
two pointer updates then run inside one connection transaction, so an error
there rolls both back while the already persisted soft-delete stands. A
missing conversation row surfaces as the subscript TypeError of the source. -/
def delete_message (actor : String) (now : Nat) (message_id : String) (s : ChatState) :
    Option ChatError × ChatState :=
  match s.fetchMessage message_id with
  | none => (some .messageNotFound, s)
  | some message =>
    match save_message actor now { message with deleted := true } s with
    | .error e => (some e, s)
    | .ok s1 =>
      match s1.fetchConversation message.conversation_id with
      | none => (some .typeError, s1)
      | some conversation =>
        match _update_conversation_last_message conversation { message with deleted := true }
            (_get_new_last_message_id s1 { message with deleted := true }) s1 with
        | .error e => (some e, s1)
        | .ok s2 =>
          (none, _update_user_conversation_last_read_message { message with deleted := true }
            (_get_new_last_message_id s1 { message with deleted := true }) s2)

/-- Replacement as the spec words it in section 4.2(b): the non-deleted
message in the same conversation as the deleted message with the greatest
sequence number strictly less than the deleted sequence, or null if none.
Stated over a message table, the conversation id and the deleted sequence,
it is the value the claims name when they say the replacement. -/
def IsSpecReplacement (msgs : List Message) (cid : String) (seq : Nat)
    (r : Option String) : Prop :=
  match r with
  | none =>
      ∀ m ∈ msgs, m.conversation_id = cid → m.deleted = false → m.seq < seq → False
  | some rid =>
      ∃ b ∈ msgs, b.id = rid ∧ b.conversation_id = cid ∧ b.deleted = false ∧
        b.seq < seq ∧
        ∀ m ∈ msgs, m.conversation_id = cid → m.deleted = false → m.seq < seq →
          m.seq ≤ b.seq

/-- Decidability of the spec replacement predicate, so that it can be checked
on concrete stores. -/
instance decIsSpecReplacement (msgs : List Message) (cid : String) (seq : Nat)
    (r : Option String) : Decidable (IsSpecReplacement msgs cid seq r) := by
  unfold IsSpecReplacement
  cases r with
  | none => exact inferInstance
  | some rid => exact inferInstance

/-! Concrete fixtures used by witnesses and counterexamples. -/

/-- Message m1 in conversation A, sequence 1. -/
def mA1 : Message := ⟨"m1", "A", 1, "one", false, 1, some "delivered", 0, "u", "a"⟩

/-- Message m2 in conversation B, sequence 2. -/
def mB2 : Message := ⟨"m2", "B", 2, "two", false, 1, some "delivered", 0, "u", "a"⟩

/-- Message m3 in conversation A, sequence 3. -/
def mA3 : Message := ⟨"m3", "A", 3, "three", false, 1, some "delivered", 0, "u", "a"⟩

/-- Store with two conversations A and B whose interleaved sequences exhibit
the missing conversation filter of the replacement query. -/
def twoConvState : ChatState :=
  ⟨[mA1, mB2, mA3],
   [⟨"A", some "m3", "a"⟩, ⟨"B", some "m2", "a"⟩],
   [⟨"u", "A", 0, some "m3"⟩, ⟨"u", "B", 0, some "m2"⟩],
   []⟩

/-- Sole message of conversation c. -/
def soleMsg : Message := ⟨"m1", "c", 1, "one", false, 1, some "delivered", 0, "u", "a"⟩

/-- Store holding one conversation whose only message is also its
last_message and the read pointer of its one member. -/
def soleState : ChatState :=
  ⟨[soleMsg], [⟨"c", some "m1", "a"⟩], [⟨"u", "c", 0, some "m1"⟩], []⟩

/-- Edit of the sole message carrying new content and the stored revision. -/
def editRec : Message := { soleMsg with body := "edited" }

/-- Store after the edit of the sole message. -/
def editedState : ChatState :=
  match save_message "u" 5 editRec soleState with
  | .ok t => t
  | .error _ => soleState

/-- The sole message already soft-deleted. -/
def soleMsgDel : Message := { soleMsg with deleted := true }

/-- Store whose only message is already deleted, with a membership row. -/
def deletedState : ChatState :=
  ⟨[soleMsgDel], [⟨"c", some "m1", "a"⟩], [⟨"u", "c", 0, some "m1"⟩], []⟩

/-- Messages of the two-message conversation used by the delete scenarios. -/
def p1 : Message := ⟨"m1", "c", 1, "one", false, 1, some "delivered", 0, "u", "a"⟩

/-- Second, newest message of the two-message conversation. -/
def p2 : Message := ⟨"m2", "c", 2, "two", false, 1, some "delivered", 0, "u", "a"⟩

/-- Store with messages of sequence 1 and 2, last_message at sequence 2, one
member reading m2 and another reading m1. -/
def twoMsgState : ChatState :=
  ⟨[p1, p2], [⟨"c", some "m2", "a"⟩],
   [⟨"u", "c", 0, some "m2"⟩, ⟨"v", "c", 2, some "m1"⟩], []⟩

/-- Store after deleting the newest message of the two-message conversation. -/
def twoMsgDeleted : ChatState := (delete_message "u" 9 "m2" twoMsgState).2

/-- Fresh message for the create scenario, authored by w. -/
def newRec : Message := ⟨"m9", "c", 2, "new", false, 0, none, 0, "w", ""⟩

/-- Store for the create scenario: conversation c has members u, w and v, and
a second conversation d has member u. -/
def createState : ChatState :=
  ⟨[soleMsg], [⟨"c", some "m1", "a"⟩],
   [⟨"u", "c", 0, some "m1"⟩, ⟨"w", "c", 3, none⟩, ⟨"v", "c", 1, none⟩,
    ⟨"u", "d", 0, none⟩], []⟩

/-- Store after the create of the fresh message. -/
def createdState : ChatState :=
  match save_message "w" 5 newRec createState with
  | .ok t => t
  | .error _ => createState

/-- Store whose only message is already deleted and which has no membership
row at all. -/
def deletedNoMemberState : ChatState :=
  ⟨[soleMsgDel], [⟨"c", some "m1", "a"⟩], [], []⟩

/-- Store whose only message is live but which has no membership row. -/
def noMemberState : ChatState :=
  ⟨[soleMsg], [⟨"c", some "m1", "a"⟩], [], []⟩

/-! Structural lemmas about the embedding. -/

/-- Writing a message row does not touch the conversation table. -/
theorem putMessage_conversations (msg : Message) (s : ChatState) :
    (putMessage msg s).conversations = s.conversations := by
  unfold putMessage; split <;> rfl

/-- Writing a message row does not touch the user_conversation table. -/
theorem putMessage_user_conversations (msg : Message) (s : ChatState) :
    (putMessage msg s).user_conversations = s.user_conversations := by
  unfold putMessage; split <;> rfl

/-- Writing a message row does not touch the history archive. -/
theorem putMessage_history (msg : Message) (s : ChatState) :
    (putMessage msg s).history = s.history := by
  unfold putMessage; split <;> rfl

/-- The after-save hook never touches the message table. -/
theorem after_save_messages (actor : String) (record : Message)
    (original : Option Message) (s : ChatState) :
    (handle_message_after_save actor record original s).messages = s.messages := by
  cases original <;> rfl

/-- The after-save hook never touches the history archive. -/
theorem after_save_history (actor : String) (record : Message)
    (original : Option Message) (s : ChatState) :
    (handle_message_after_save actor record original s).history = s.history := by
  cases original <;> rfl

/-- On an edit or delete save the after-save hook is the identity. -/
theorem after_save_edit (actor : String) (record orig : Message) (s : ChatState) :
    handle_message_after_save actor record (some orig) s = s := rfl

/-- Message lookup depends only on the message table. -/
theorem fetchMessage_congr (s t : ChatState) (h : s.messages = t.messages)
    (mid : String) : s.fetchMessage mid = t.fetchMessage mid := by
  unfold ChatState.fetchMessage; rw [h]

/-- Conversation lookup depends only on the conversation table. -/
theorem fetchConversation_congr (s t : ChatState) (h : s.conversations = t.conversations)
    (cid : String) : s.fetchConversation cid = t.fetchConversation cid := by
  unfold ChatState.fetchConversation; rw [h]

/-- A rejected save of an already-deleted original, independent of every
other part of the state. -/
theorem before_save_already_deleted (actor : String) (now : Nat) (record orig : Message)
    (s : ChatState) (h : orig.deleted = true) :
    handle_message_before_save actor now record (some orig) s =
      .error .alreadyDeleted := by
  simp [handle_message_before_save, isDeletedOriginal, h]

/-- A rejected save when the membership row is absent and the original is not
already deleted. -/
theorem before_save_not_in_conversation (actor : String) (now : Nat) (record : Message)
    (original : Option Message) (s : ChatState)
    (hd : isDeletedOriginal original = false)
    (h : s.fetchUserConversation actor record.conversation_id = none) :
    handle_message_before_save actor now record original s =
      .error .notInConversation := by
  simp [handle_message_before_save, hd, h]

/-- Characterization of an accepted edit in the before-save hook: the
conversation row exists, the returned record is the stamped input and the
pre-edit snapshot is appended to history. -/
theorem before_save_edit_inv (actor : String) (now : Nat) (record orig msg : Message)
    (s s' : ChatState)
    (h : handle_message_before_save actor now record (some orig) s = .ok (msg, s')) :
    ∃ conv, s.fetchConversation record.conversation_id = some conv ∧
      msg = stampMessage actor now conv record ∧
      s' = { s with history := s.history ++ [orig] } := by
  unfold handle_message_before_save at h
  split at h
  · exact absurd h (by simp)
  · split at h
    · exact absurd h (by simp)
    · split at h
      · exact absurd h (by simp)
      · next conv hconv =>
        simp only [Except.ok.injEq, Prod.mk.injEq] at h
        exact ⟨conv, hconv, h.1.symm, h.2.symm⟩

/-- Characterization of an accepted create in the before-save hook: the
conversation row exists, the returned record is the stamped input with
deleted reset and revision 1, and the state is untouched. -/
theorem before_save_create_inv (actor : String) (now : Nat) (record msg : Message)
    (s s' : ChatState)
    (h : handle_message_before_save actor now record none s = .ok (msg, s')) :
    ∃ conv, s.fetchConversation record.conversation_id = some conv ∧
      msg = stampMessage actor now conv { record with deleted := false, revision := 1 } ∧
      s' = s := by
  unfold handle_message_before_save at h
  split at h
  · exact absurd h (by simp)
  · split at h
    · exact absurd h (by simp)
    · split at h
      · exact absurd h (by simp)
      · next conv hconv =>
        simp only [Except.ok.injEq, Prod.mk.injEq] at h
        exact ⟨conv, hconv, h.1.symm, h.2.symm⟩

/-- Unread bump and last_message projection of the after-save hook on a
create, stated as definitional equations. -/
theorem after_save_create_ucs (actor : String) (record : Message) (s : ChatState) :
    (handle_message_after_save actor record none s).user_conversations =
      s.user_conversations.map (fun uc =>
        if uc.conversation_id = record.conversation_id ∧ uc.user_id ≠ actor then
          { uc with unread_count := uc.unread_count + 1 }
        else uc) := rfl

/-- Conversation pointer projection of the after-save hook on a create. -/
theorem after_save_create_convs (actor : String) (record : Message) (s : ChatState) :
    (handle_message_after_save actor record none s).conversations =
      s.conversations.map (fun c =>
        if c.id = record.conversation_id then { c with last_message := some record.id }
        else c) := rfl

/-- A save whose stored original is already deleted fails with the
already-deleted error. -/
theorem save_already_deleted (actor : String) (now : Nat) (record orig : Message)
    (s : ChatState) (hm : s.fetchMessage record.id = some orig)
    (hd : orig.deleted = true) :
    save_message actor now record s = .error .alreadyDeleted := by
  unfold save_message
  rw [hm, before_save_already_deleted actor now record orig s hd]

/-- A save with no membership row fails with the not-in-conversation error,
provided the stored original is not already deleted. -/
theorem save_not_in_conversation (actor : String) (now : Nat) (record : Message)
    (s : ChatState)
    (hd : ∀ orig, s.fetchMessage record.id = some orig → orig.deleted = false)
    (h : s.fetchUserConversation actor record.conversation_id = none) :
    save_message actor now record s = .error .notInConversation := by
  unfold save_message
  rw [before_save_not_in_conversation actor now record (s.fetchMessage record.id) s ?_ h]
  cases hm : s.fetchMessage record.id with
  | none => rfl
  | some orig => simp [isDeletedOriginal, hd orig hm]

/-- Characterization of a successful edit save: the store afterwards is the
stamped record written over the previous row, with the pre-edit snapshot
appended to history and every other table untouched. -/
theorem save_message_edit_inv (actor : String) (now : Nat) (record orig : Message)
    (s s1 : ChatState)
    (hm : s.fetchMessage record.id = some orig)
    (hs : save_message actor now record s = .ok s1) :
    ∃ conv, s.fetchConversation record.conversation_id = some conv ∧
      s1 = putMessage (stampMessage actor now conv record)
             { s with history := s.history ++ [orig] } := by
  unfold save_message at hs
  rw [hm] at hs
  cases hb : handle_message_before_save actor now record (some orig) s with
  | error e => rw [hb] at hs; exact absurd hs (by simp)
  | ok p =>
    obtain ⟨msg, s'⟩ := p
    rw [hb] at hs
    obtain ⟨conv, hconv, hmsg, hst⟩ :=
      before_save_edit_inv actor now record orig msg s s' hb
    refine ⟨conv, hconv, ?_⟩
    have h1 : s1 = handle_message_after_save actor msg (some orig) (putMessage msg s') :=
      (Except.ok.inj hs).symm
    rw [h1, after_save_edit, hmsg, hst]

/-- Characterization of a successful create save: the store afterwards is the
stamped fresh record inserted, unread counters bumped for the other members
of the conversation and the conversation pointer set to the new id. -/
theorem save_message_create_inv (actor : String) (now : Nat) (record : Message)
    (s s1 : ChatState)
    (hm : s.fetchMessage record.id = none)
    (hs : save_message actor now record s = .ok s1) :
    ∃ conv, s.fetchConversation record.conversation_id = some conv ∧
      s1 = handle_message_after_save actor
             (stampMessage actor now conv { record with deleted := false, revision := 1 })
             none
             (putMessage
               (stampMessage actor now conv { record with deleted := false, revision := 1 })
               s) := by
  unfold save_message at hs
  rw [hm] at hs
  cases hb : handle_message_before_save actor now record none s with
  | error e => rw [hb] at hs; exact absurd hs (by simp)
  | ok p =>
    obtain ⟨msg, s'⟩ := p
    rw [hb] at hs
    obtain ⟨conv, hconv, hmsg, hst⟩ :=
      before_save_create_inv actor now record msg s s' hb
    refine ⟨conv, hconv, ?_⟩
    have h1 : s1 = handle_message_after_save actor msg none (putMessage msg s') :=
      (Except.ok.inj hs).symm
    rw [h1, hmsg, hst]

/-- Lookup of a freshly written row inside a table where the id was already
present: every matching row was overwritten, so find? returns the new row. -/
theorem find_map_replace (msg : Message) :
    ∀ l : List Message, l.any (fun m => m.id == msg.id) = true →
      (l.map (fun m => if m.id == msg.id then msg else m)).find?
          (fun m => m.id == msg.id) = some msg := by
  intro l
  induction l with
  | nil => intro h; simp at h
  | cons a t ih =>
    intro h
    by_cases ha : (a.id == msg.id) = true
    · simp only [List.map_cons, if_pos ha]
      rw [List.find?_cons_of_pos]
      simp
    · simp only [List.map_cons, if_neg ha]
      rw [List.find?_cons_of_neg _ (by simpa using ha)]
      apply ih
      simpa [ha] using h

/-- Lookup of a freshly appended row inside a table none of whose rows carry
its id: find? skips the old rows and returns the appended one. -/
theorem find_append_single (msg : Message) :
    ∀ l : List Message, l.any (fun m => m.id == msg.id) = false →
      (l ++ [msg]).find? (fun m => m.id == msg.id) = some msg := by
  intro l
  induction l with
  | nil => intro _; simp [List.find?]
  | cons a t ih =>
    intro h
    simp only [List.any_cons, Bool.or_eq_false_iff] at h
    rw [List.cons_append, List.find?_cons_of_neg _ (by simp [h.1])]
    exact ih h.2

/-- A written message row is found again under its id. -/
theorem fetchMessage_putMessage (msg : Message) (s : ChatState) :
    (putMessage msg s).fetchMessage msg.id = some msg := by
  unfold putMessage
  split
  · next h => exact find_map_replace msg s.messages h
  · next h => exact find_append_single msg s.messages (by simpa using h)

/-- One query step keeps only non-deleted rows of strictly smaller sequence. -/
theorem pickNewer_inv (seq : Nat) (acc : Option Message) (m : Message)
    (hacc : ∀ b, acc = some b → b.deleted = false ∧ b.seq < seq) :
    ∀ b, pickNewer seq acc m = some b → b.deleted = false ∧ b.seq < seq := by
  intro b hb
  by_cases hm : m.deleted = false ∧ m.seq < seq
  · cases acc with
    | none =>
      simp [pickNewer, hm] at hb
      exact hb ▸ hm
    | some a =>
      by_cases hlt : a.seq < m.seq
      · simp [pickNewer, hm, hlt] at hb
        exact hb ▸ hm
      · simp [pickNewer, hm, hlt] at hb
        exact hb ▸ hacc a rfl
  · simp [pickNewer, hm] at hb
    exact hacc b hb

/-- One query step returns either the carried accumulator or the scanned row. -/
theorem pickNewer_origin (seq : Nat) (acc : Option Message) (m : Message) :
    ∀ b, pickNewer seq acc m = some b → acc = some b ∨ b = m := by
  intro b hb
  by_cases hm : m.deleted = false ∧ m.seq < seq
  · cases acc with
    | none =>
      simp [pickNewer, hm] at hb
      exact Or.inr hb.symm
    | some a =>
      by_cases hlt : a.seq < m.seq
      · simp [pickNewer, hm, hlt] at hb
        exact Or.inr hb.symm
      · simp [pickNewer, hm, hlt] at hb
        exact Or.inl (congrArg some hb)
  · simp [pickNewer, hm] at hb
    exact Or.inl hb

/-- A qualifying scanned row is dominated by the step result. -/
theorem pickNewer_le_new (seq : Nat) (acc : Option Message) (m : Message)
    (h1 : m.deleted = false) (h2 : m.seq < seq) :
    ∃ b, pickNewer seq acc m = some b ∧ m.seq ≤ b.seq := by
  cases acc with
  | none => exact ⟨m, by simp [pickNewer, h1, h2], Nat.le_refl _⟩
  | some a =>
    by_cases h : a.seq < m.seq
    · exact ⟨m, by simp [pickNewer, h1, h2, h], Nat.le_refl _⟩
    · exact ⟨a, by simp [pickNewer, h1, h2, h], Nat.le_of_not_lt h⟩

/-- The carried accumulator is dominated by the step result. -/
theorem pickNewer_le_old (seq : Nat) (acc : Option Message) (m : Message) :
    ∀ a, acc = some a → ∃ b, pickNewer seq acc m = some b ∧ a.seq ≤ b.seq := by
  intro a ha
  subst ha
  by_cases hm : m.deleted = false ∧ m.seq < seq
  · by_cases h : a.seq < m.seq
    · exact ⟨m, by simp [pickNewer, hm, h], Nat.le_of_lt h⟩
    · exact ⟨a, by simp [pickNewer, hm, h], Nat.le_refl _⟩
  · exact ⟨a, by simp [pickNewer, hm], Nat.le_refl _⟩

/-- Invariant of the whole scan: the result is a qualifying row (or the
carried accumulator), every qualifying scanned row is dominated by it, and
the accumulator is dominated by it. -/
theorem foldl_pickNewer_spec (seq : Nat) (msgs : List Message) :
    ∀ acc : Option Message,
      (∀ b, acc = some b → b.deleted = false ∧ b.seq < seq) →
      ((∀ b, msgs.foldl (pickNewer seq) acc = some b →
          (b.deleted = false ∧ b.seq < seq) ∧ (acc = some b ∨ b ∈ msgs)) ∧
       (∀ m, m ∈ msgs → m.deleted = false → m.seq < seq →
          ∃ b, msgs.foldl (pickNewer seq) acc = some b ∧ m.seq ≤ b.seq) ∧
       (∀ a, acc = some a →
          ∃ b, msgs.foldl (pickNewer seq) acc = some b ∧ a.seq ≤ b.seq)) := by
  induction msgs with
  | nil =>
    intro acc hacc
    refine ⟨?_, ?_, ?_⟩
    · intro b hb; exact ⟨hacc b hb, Or.inl hb⟩
    · intro m hm; exact absurd hm (List.not_mem_nil m)
    · intro a ha; exact ⟨a, ha, Nat.le_refl _⟩
  | cons m rest ih =>
    intro acc hacc
    have hacc' := pickNewer_inv seq acc m hacc
    obtain ⟨ih1, ih2, ih3⟩ := ih (pickNewer seq acc m) hacc'
    rw [List.foldl_cons]
    refine ⟨?_, ?_, ?_⟩
    · intro b hb
      obtain ⟨hP, horigin⟩ := ih1 b hb
      refine ⟨hP, ?_⟩
      cases horigin with
      | inl h =>
        cases pickNewer_origin seq acc m b h with
        | inl h2 => exact Or.inl h2
        | inr h2 => exact Or.inr (by rw [h2]; exact List.mem_cons_self m rest)
      | inr h => exact Or.inr (List.mem_cons_of_mem m h)
    · intro x hx hxd hxs
      cases List.mem_cons.mp hx with
      | inl hxm =>
        subst hxm
        obtain ⟨a', ha', hle⟩ := pickNewer_le_new seq acc x hxd hxs
        obtain ⟨b, hb, hle2⟩ := ih3 a' ha'
        exact ⟨b, hb, Nat.le_trans hle hle2⟩
      | inr hxr => exact ih2 x hxr hxd hxs
    · intro a ha
      obtain ⟨a', ha', hle⟩ := pickNewer_le_old seq acc m a ha
      obtain ⟨b, hb, hle2⟩ := ih3 a' ha'
      exact ⟨b, hb, Nat.le_trans hle hle2⟩

/-- The replacement query returns a non-deleted row of maximal sequence
strictly below the bound, and returns none exactly when no row qualifies. -/
theorem newestBefore_spec (msgs : List Message) (seq : Nat) :
    (∀ b, newestBefore msgs seq = some b →
      b ∈ msgs ∧ b.deleted = false ∧ b.seq < seq ∧
        ∀ m ∈ msgs, m.deleted = false → m.seq < seq → m.seq ≤ b.seq) ∧
    (newestBefore msgs seq = none →
      ∀ m ∈ msgs, m.deleted = false → m.seq < seq → False) := by
  obtain ⟨h1, h2, _⟩ :=
    foldl_pickNewer_spec seq msgs none (by intro b hb; exact Option.noConfusion hb)
  constructor
  · intro b hb
    rw [newestBefore] at hb
    obtain ⟨⟨hd, hs⟩, horigin⟩ := h1 b hb
    have hb_mem : b ∈ msgs := by
      cases horigin with
      | inl h => exact absurd h (by simp)
      | inr h => exact h
    refine ⟨hb_mem, hd, hs, ?_⟩
    intro m hm hmd hms
    obtain ⟨b', hb', hle⟩ := h2 m hm hmd hms
    rw [hb] at hb'
    obtain rfl : b = b' := Option.some.inj hb'
    exact hle
  · intro hnone m hm hmd hms
    rw [newestBefore] at hnone
    obtain ⟨b', hb', _⟩ := h2 m hm hmd hms
    rw [hnone] at hb'
    exact Option.noConfusion hb'

/-- A found message row carries the id it was looked up under. -/
theorem fetchMessage_id (s : ChatState) (mid : String) (M : Message)
    (h : s.fetchMessage mid = some M) : M.id = mid := by
  unfold ChatState.fetchMessage at h
  have hp := List.find?_some h
  simp only [beq_iff_eq] at hp
  exact hp

/-- Characterization of a successful conversation-pointer update: when the
deleted message was the current last_message the replacement id must be
present and the conversation row of the message is repointed to it; otherwise
the state is untouched. -/
theorem update_conv_inv (conversation : Conversation) (last_message : Message)
    (r : Option String) (s s2 : ChatState)
    (h : _update_conversation_last_message conversation last_message r s = .ok s2) :
    (conversation.last_message = some last_message.id →
      ∃ nid, r = some nid ∧
        s2.conversations = s.conversations.map (fun c =>
          if c.id = last_message.conversation_id then { c with last_message := some nid }
          else c) ∧
        s2.messages = s.messages ∧ s2.user_conversations = s.user_conversations) ∧
    (conversation.last_message ≠ some last_message.id → s2 = s) := by
  by_cases hc : conversation.last_message = some last_message.id
  · cases r with
    | none =>
      unfold _update_conversation_last_message at h
      rw [if_pos hc] at h
      exact absurd h (by simp)
    | some nid =>
      unfold _update_conversation_last_message at h
      rw [if_pos hc] at h
      simp only [Except.ok.injEq] at h
      refine ⟨fun _ => ⟨nid, rfl, ?_, ?_, ?_⟩, fun hn => absurd hc hn⟩ <;> rw [← h]
  · unfold _update_conversation_last_message at h
    rw [if_neg hc] at h
    simp only [Except.ok.injEq] at h
    exact ⟨fun hcc => absurd hcc hc, fun _ => h.symm⟩

/-- The soft-delete save of delete_message is an edit save and thus leaves
the conversation and user_conversation tables unchanged. -/
theorem delete_save_frame (actor : String) (now : Nat) (M : Message) (s s1 : ChatState)
    (hM : s.fetchMessage M.id = some M)
    (hsave : save_message actor now { M with deleted := true } s = .ok s1) :
    s1.conversations = s.conversations ∧ s1.user_conversations = s.user_conversations := by
  obtain ⟨conv, _, h1⟩ :=
    save_message_edit_inv actor now { M with deleted := true } M s s1 hM hsave
  constructor
  · rw [h1, putMessage_conversations]
  · rw [h1, putMessage_user_conversations]

/-- Dissection of a successful delete: the soft-delete save, the conversation
lookup and the conversation-pointer update all succeeded, and the final state
is the read-pointer reconciliation applied last. -/
theorem delete_success_inv (actor : String) (now : Nat) (mid : String)
    (s s' : ChatState) (M : Message)
    (hM : s.fetchMessage mid = some M)
    (hs : delete_message actor now mid s = (none, s')) :
    ∃ s1, save_message actor now { M with deleted := true } s = .ok s1 ∧
      ∃ conversation, s1.fetchConversation M.conversation_id = some conversation ∧
      ∃ s2, _update_conversation_last_message conversation { M with deleted := true }
              (_get_new_last_message_id s1 { M with deleted := true }) s1 = .ok s2 ∧
        s' = _update_user_conversation_last_read_message { M with deleted := true }
              (_get_new_last_message_id s1 { M with deleted := true }) s2 := by
  simp only [delete_message, hM] at hs
  split at hs
  · simp at hs
  · rename_i s1 hsave
    split at hs
    · simp at hs
    · rename_i conversation hc
      split at hs
      · simp at hs
      · rename_i s2 hu
        simp only [Prod.mk.injEq] at hs
        exact ⟨s1, hsave, conversation, hc, s2, hu, hs.2.symm⟩

/-- Projection equations of the read-pointer reconciliation. -/
theorem update_uc_ucs (last_message : Message) (r : Option String) (s : ChatState) :
    (_update_user_conversation_last_read_message last_message r s).user_conversations =
      s.user_conversations.map (fun uc =>
        if uc.last_read_message = some last_message.id then
          { uc with last_read_message := r }
        else uc) := rfl

/-- The read-pointer reconciliation never touches the message table. -/
theorem update_uc_messages (last_message : Message) (r : Option String) (s : ChatState) :
    (_update_user_conversation_last_read_message last_message r s).messages =
      s.messages := rfl

/-- The read-pointer reconciliation never touches the conversation table. -/
theorem update_uc_convs (last_message : Message) (r : Option String) (s : ChatState) :
    (_update_user_conversation_last_read_message last_message r s).conversations =
      s.conversations := rfl

/-! Claim theorems. -/

/-- C1: the replacement computation of Delete does select a message from a
different conversation. Deleting m3 of conversation A in a store where
conversation B holds the non-deleted message m2 of sequence 2 and
conversation A holds m1 of sequence 1, the query returns m2 — the greatest
smaller sequence across all conversations — and the completed delete
repoints conversation A at the message of conversation B, contradicting the
claim that the replacement is within the same conversation. -/
theorem C1_replacement_crosses_conversations :
    _get_new_last_message_id twoConvState mA3 = some "m2" ∧
    mB2.id = "m2" ∧ mB2.conversation_id = "B" ∧ mA3.conversation_id = "A" ∧
    mA1.conversation_id = "A" ∧ mA1.deleted = false ∧ mA1.seq < mA3.seq ∧
    (delete_message "u" 7 "m3" twoConvState).1 = none ∧
    ((delete_message "u" 7 "m3" twoConvState).2.fetchConversation "A").map
        Conversation.last_message = some (some "m2") := by
  refine ⟨rfl, rfl, rfl, rfl, rfl, rfl, by decide, rfl, rfl⟩

/-- C2 counterexample: a successful edit of the sole message leaves revision
at 1, not 2, because the before-save hook never increments it. -/
theorem C2_edit_leaves_revision_at_one :
    save_message "u" 5 editRec soleState = .ok editedState ∧
    (editedState.fetchMessage "m1").map Message.revision = some 1 ∧ (1 : Nat) ≠ 2 := by
  refine ⟨rfl, rfl, by decide⟩

/-- C2 amended: revision equals 1 immediately after creation, and a
successful edit leaves revision exactly as carried by the submitted record —
the pipeline neither increments nor decrements it. -/
theorem C2_revision_create_one_edit_unchanged (actor : String) (now : Nat)
    (record : Message) (s s1 : ChatState) :
    (s.fetchMessage record.id = none → save_message actor now record s = .ok s1 →
      (s1.fetchMessage record.id).map Message.revision = some 1) ∧
    (∀ orig, s.fetchMessage record.id = some orig →
      save_message actor now record s = .ok s1 →
      (s1.fetchMessage record.id).map Message.revision = some record.revision) := by
  constructor
  · intro hm hs
    obtain ⟨conv, hconv, h1⟩ := save_message_create_inv actor now record s s1 hm hs
    subst h1
    rw [fetchMessage_congr _
      (putMessage (stampMessage actor now conv { record with deleted := false, revision := 1 }) s)
      (after_save_messages _ _ _ _) record.id]
    have h2 : (putMessage
        (stampMessage actor now conv { record with deleted := false, revision := 1 })
        s).fetchMessage record.id =
        some (stampMessage actor now conv { record with deleted := false, revision := 1 }) :=
      fetchMessage_putMessage _ _
    rw [h2]
    rfl
  · intro orig hm hs
    obtain ⟨conv, hconv, h1⟩ := save_message_edit_inv actor now record orig s s1 hm hs
    subst h1
    have h2 : (putMessage (stampMessage actor now conv record)
        { s with history := s.history ++ [orig] }).fetchMessage record.id =
        some (stampMessage actor now conv record) :=
      fetchMessage_putMessage _ _
    rw [h2]
    rfl

/-- C2 witness: the amended revision behavior evaluated on the concrete edit
of the sole message. -/
theorem C2_revision_create_one_edit_unchanged_witness :
    (editedState.fetchMessage "m1").map Message.revision = some editRec.revision :=
  (C2_revision_create_one_edit_unchanged "u" 5 editRec soleState editedState).2
    soleMsg rfl rfl

/-- C3: deleting the only (and therefore newest) message of a conversation
does not succeed with a null pointer; the pointer update fails with the
modelled TypeError, leaving the conversation pointing at the now-deleted
message while the soft-delete has already been persisted. -/
theorem C3_delete_without_replacement_errors :
    (delete_message "u" 7 "m1" soleState).1 = some ChatError.typeError ∧
    ((delete_message "u" 7 "m1" soleState).2.fetchConversation "c").map
        Conversation.last_message = some (some "m1") ∧
    ((delete_message "u" 7 "m1" soleState).2.fetchMessage "m1").map Message.deleted =
      some true := by
  refine ⟨rfl, rfl, rfl⟩

/-- C4 counterexample: a delete that fails in the pointer-update transaction
still surfaces the persisted soft-delete — the deleted flag flips from false
to true although the operation reports an error. -/
theorem C4_deleted_flag_persists_after_failed_delete :
    (delete_message "u" 7 "m1" soleState).1 ≠ none ∧
    (soleState.fetchMessage "m1").map Message.deleted = some false ∧
    ((delete_message "u" 7 "m1" soleState).2.fetchMessage "m1").map Message.deleted =
      some true := by
  refine ⟨by decide, rfl, rfl⟩

/-- C4 amended: whenever delete_message fails, the conversation and
user_conversation tables are unchanged — the two pointer updates are atomic
with each other — but the soft-delete persists outside that transaction, so
the deleted flag is not covered by the rollback. -/
theorem C4_pointer_transaction_atomic (actor : String) (now : Nat) (mid : String)
    (s s' : ChatState) (e : ChatError)
    (h : delete_message actor now mid s = (some e, s')) :
    s'.conversations = s.conversations ∧ s'.user_conversations = s.user_conversations := by
  cases hf : s.fetchMessage mid with
  | none =>
    simp only [delete_message, hf] at h
    simp only [Prod.mk.injEq] at h
    rw [← h.2]
    exact ⟨rfl, rfl⟩
  | some M =>
    have hid : M.id = mid := fetchMessage_id s mid M hf
    simp only [delete_message, hf] at h
    split at h
    · simp only [Prod.mk.injEq] at h
      rw [← h.2]
      exact ⟨rfl, rfl⟩
    · rename_i s1 hsave
      have hM' : s.fetchMessage M.id = some M := by rw [hid]; exact hf
      have hframe := delete_save_frame actor now M s s1 hM' hsave
      split at h
      · simp only [Prod.mk.injEq] at h
        rw [← h.2]
        exact hframe
      · rename_i conversation hc
        split at h
        · simp only [Prod.mk.injEq] at h
          rw [← h.2]
          exact hframe
        · simp at h

/-- C4 witness: the pointer-update atomicity evaluated on the concrete
failing delete of the sole message. -/
theorem C4_pointer_transaction_atomic_witness :
    (delete_message "u" 7 "m1" soleState).2.conversations = soleState.conversations ∧
    (delete_message "u" 7 "m1" soleState).2.user_conversations =
      soleState.user_conversations :=
  C4_pointer_transaction_atomic "u" 7 "m1" soleState
    (delete_message "u" 7 "m1" soleState).2 ChatError.typeError rfl

/-- C5: every save of a message whose stored original is already deleted —
the repeated delete included — fails with the already-deleted error and
leaves the state unchanged, making the deleted flag one-way. -/
theorem C5_already_deleted_is_final (actor : String) (now : Nat) (s : ChatState) :
    (∀ record orig, s.fetchMessage record.id = some orig → orig.deleted = true →
      save_message actor now record s = .error .alreadyDeleted) ∧
    (∀ mid M, s.fetchMessage mid = some M → M.deleted = true →
      delete_message actor now mid s = (some .alreadyDeleted, s)) := by
  constructor
  · intro record orig hm hd
    exact save_already_deleted actor now record orig s hm hd
  · intro mid M hm hd
    have hid : M.id = mid := fetchMessage_id s mid M hm
    have hm' : s.fetchMessage ({ M with deleted := true } : Message).id = some M := by
      show s.fetchMessage M.id = some M
      rw [hid]
      exact hm
    have hsave := save_already_deleted actor now { M with deleted := true } M s hm' hd
    simp only [delete_message, hm, hsave]

/-- C5 witness: the already-deleted rejection evaluated on the concrete
store whose only message is deleted. -/
theorem C5_already_deleted_is_final_witness :
    save_message "u" 3 soleMsgDel deletedState = .error .alreadyDeleted ∧
    delete_message "u" 3 "m1" deletedState = (some .alreadyDeleted, deletedState) := by
  constructor
  · exact (C5_already_deleted_is_final "u" 3 deletedState).1 soleMsgDel soleMsgDel rfl rfl
  · exact (C5_already_deleted_is_final "u" 3 deletedState).2 "m1" soleMsgDel rfl rfl

/-- C6: the read-pointer repair does not point at the replacement the claim
names. In the two-conversation store, member u of conversation A has read m3
(conversation A, sequence 3); deleting m3 succeeds and repoints that read
pointer to m2 of conversation B, while the replacement of the claim — the
non-deleted message of the same conversation with the greatest sequence
strictly below 3 — is m1. The set-based repair inherits the unfiltered
replacement query of C1, so the claim is false of the code. -/
theorem C6_read_pointer_repair_crosses_conversations :
    (delete_message "u" 7 "m3" twoConvState).1 = none ∧
    (twoConvState.fetchUserConversation "u" "A").map
        UserConversation.last_read_message = some (some "m3") ∧
    mA3.id = "m3" ∧ mA3.conversation_id = "A" ∧ mA3.seq = 3 ∧
    ((delete_message "u" 7 "m3" twoConvState).2.fetchUserConversation "u" "A").map
        UserConversation.last_read_message = some (some "m2") ∧
    mB2.id = "m2" ∧ mB2.conversation_id = "B" ∧
    IsSpecReplacement twoConvState.messages "A" 3 (some "m1") ∧
    (some "m2" : Option String) ≠ some "m1" := by
  refine ⟨rfl, rfl, rfl, rfl, rfl, rfl, rfl, rfl, ?_, by decide⟩
  unfold IsSpecReplacement
  decide

/-- C7: the conversation pointer is repointed when the deleted message was
the current last_message, but not to the replacement the claim names. In the
two-conversation store, m3 is the current last_message of conversation A;
deleting m3 succeeds and repoints conversation A at m2 of conversation B,
while the replacement of the claim — the non-deleted message of the same
conversation with the greatest sequence strictly below 3 — is m1. The
repoint target inherits the unfiltered replacement query of C1, so the claim
is false of the code. -/
theorem C7_conversation_repoint_crosses_conversations :
    (delete_message "u" 7 "m3" twoConvState).1 = none ∧
    (twoConvState.fetchConversation "A").map Conversation.last_message =
      some (some "m3") ∧
    mA3.id = "m3" ∧ mA3.conversation_id = "A" ∧ mA3.seq = 3 ∧
    ((delete_message "u" 7 "m3" twoConvState).2.fetchConversation "A").map
        Conversation.last_message = some (some "m2") ∧
    mB2.id = "m2" ∧ mB2.conversation_id = "B" ∧
    IsSpecReplacement twoConvState.messages "A" 3 (some "m1") ∧
    (some "m2" : Option String) ≠ some "m1" := by
  refine ⟨rfl, rfl, rfl, rfl, rfl, rfl, rfl, rfl, ?_, by decide⟩
  unfold IsSpecReplacement
  decide

/-- C8: a successful create bumps the unread counter of exactly the
membership rows of the same conversation whose user differs from the actor,
leaves every other row unchanged, and sets the conversation last_message to
the new message id. -/
theorem C8_create_bumps_unread_and_sets_pointer (actor : String) (now : Nat)
    (record : Message) (s s1 : ChatState)
    (hm : s.fetchMessage record.id = none)
    (hs : save_message actor now record s = .ok s1) :
    s1.user_conversations = s.user_conversations.map (fun uc =>
      if uc.conversation_id = record.conversation_id ∧ uc.user_id ≠ actor then
        { uc with unread_count := uc.unread_count + 1 }
      else uc) ∧
    s1.conversations = s.conversations.map (fun c =>
      if c.id = record.conversation_id then { c with last_message := some record.id }
      else c) := by
  obtain ⟨conv, hconv, h1⟩ := save_message_create_inv actor now record s s1 hm hs
  subst h1
  constructor
  · rw [after_save_create_ucs, putMessage_user_conversations]
    rfl
  · rw [after_save_create_convs, putMessage_conversations]
    rfl

/-- C8 witness: the create effects evaluated on the concrete store with
three members of the conversation and one member of another conversation. -/
theorem C8_create_bumps_unread_and_sets_pointer_witness :
    createdState.user_conversations = createState.user_conversations.map (fun uc =>
      if uc.conversation_id = newRec.conversation_id ∧ uc.user_id ≠ "w" then
        { uc with unread_count := uc.unread_count + 1 }
      else uc) ∧
    createdState.conversations = createState.conversations.map (fun c =>
      if c.id = newRec.conversation_id then { c with last_message := some newRec.id }
      else c) :=
  C8_create_bumps_unread_and_sets_pointer "w" 5 newRec createState createdState rfl rfl

/-- C9: a successful edit appends exactly one history row — the stored
pre-edit record — and a create appends none; iterating the equation, two
successful edits append the two pre-edit snapshots in order. -/
theorem C9_history_snapshot_on_edit_only (actor : String) (now : Nat)
    (record : Message) (s s1 : ChatState) :
    (∀ orig, s.fetchMessage record.id = some orig →
      save_message actor now record s = .ok s1 → s1.history = s.history ++ [orig]) ∧
    (s.fetchMessage record.id = none →
      save_message actor now record s = .ok s1 → s1.history = s.history) := by
  constructor
  · intro orig hm hs
    obtain ⟨conv, hconv, h1⟩ := save_message_edit_inv actor now record orig s s1 hm hs
    rw [h1, putMessage_history]
  · intro hm hs
    obtain ⟨conv, hconv, h1⟩ := save_message_create_inv actor now record s s1 hm hs
    rw [h1, after_save_history, putMessage_history]

/-- C9 witness: the history snapshot evaluated on the concrete edit of the
sole message. -/
theorem C9_history_snapshot_on_edit_only_witness :
    editedState.history = soleState.history ++ [soleMsg] :=
  (C9_history_snapshot_on_edit_only "u" 5 editRec soleState editedState).1 soleMsg rfl rfl

/-- C10 counterexample: a save with no membership row whose stored original
is already deleted is rejected with the already-deleted error, not the
not-in-conversation error the claim names. -/
theorem C10_deleted_takes_precedence_over_membership :
    deletedNoMemberState.fetchUserConversation "u" "c" = none ∧
    save_message "u" 3 soleMsgDel deletedNoMemberState = .error .alreadyDeleted ∧
    ChatError.alreadyDeleted ≠ ChatError.notInConversation := by
  refine ⟨rfl, rfl, by decide⟩

/-- C10 amended: on every save — creation or edit alike — with no membership
row for the conversation of the record, the save is rejected before any state
change with the not-in-conversation error, unless the stored original is
already deleted, in which case the already-deleted rejection takes
precedence. -/
theorem C10_membership_checked_on_every_save (actor : String) (now : Nat)
    (record : Message) (s : ChatState)
    (huc : s.fetchUserConversation actor record.conversation_id = none)
    (hd : (s.fetchMessage record.id).all (fun m => !m.deleted) = true) :
    save_message actor now record s = .error .notInConversation := by
  apply save_not_in_conversation actor now record s ?_ huc
  intro orig hm
  rw [hm] at hd
  simp only [Option.all_some, Bool.not_eq_true'] at hd
  exact hd

/-- C10 witness: the membership rejection evaluated on the concrete edit of
a live message in a store with no membership row. -/
theorem C10_membership_checked_on_every_save_witness :
    save_message "u" 3 editRec noMemberState = .error .notInConversation :=
  C10_membership_checked_on_every_save "u" 3 editRec noMemberState rfl rfl

end Chat
